import Mathlib

/-!
Shallow embedding of `src/currency_converter.py` (an interactive CLI
currency converter).  Interactive input is modelled as a finite list of
operator lines consumed in order; a function that in Python would block
forever on input returns `none` when the list is exhausted.  Network
requests are modelled by a `RequestOutcome` value describing what the
transport and the remote API did.  Printing is not modelled except where
a claim is about the printed text, in which case the text is returned as
a `String`.
-/

namespace CurrencyConverter

/-! ### Python string primitives used by the program -/

/-- Whitespace characters removed by Python `str.strip()` (ASCII part). -/
def isPySpace (c : Char) : Bool :=
  c = ' ' || c = '\t' || c = '\n' || c = '\x0d' || c = '\x0b' || c = '\x0c'

/-- Model of Python `str.strip()`: drop leading and trailing whitespace. -/
def pyStrip (s : String) : String :=
  String.mk (((s.data.dropWhile isPySpace).reverse.dropWhile isPySpace).reverse)

/-- Model of Python `str.lower()` on the ASCII range. -/
def pyLower (s : String) : String :=
  String.mk (s.data.map Char.toLower)

/-- Model of Python `str.upper()` on the ASCII range. -/
def pyUpper (s : String) : String :=
  String.mk (s.data.map Char.toUpper)

/-- Model of the Python substring test `needle in haystack`. -/
def pyIn (needle haystack : String) : Bool :=
  decide (needle.data <:+: haystack.data)

/-! ### Python float model

Python `float` values relevant to this program: finite values are
modelled as exact rationals (binary rounding is not modelled; no claim
depends on it), plus the special values `nan`, `inf` and `-inf` that
Python `float()` also parses. -/

inductive PyFloat where
  | nan : PyFloat
  | inf : PyFloat
  | ninf : PyFloat
  | fin : ℚ → PyFloat
deriving DecidableEq, Repr

/-- Python `<=` on floats: every comparison with `nan` is false. -/
def pyLe (a b : PyFloat) : Bool :=
  match a, b with
  | .nan, _ => false
  | _, .nan => false
  | .ninf, _ => true
  | _, .ninf => false
  | .inf, .inf => true
  | .inf, .fin _ => false
  | .fin _, .inf => true
  | .fin x, .fin y => decide (x ≤ y)

/-- Python `<` on floats: every comparison with `nan` is false. -/
def pyLt (a b : PyFloat) : Bool :=
  match a, b with
  | .nan, _ => false
  | _, .nan => false
  | .ninf, .ninf => false
  | .ninf, _ => true
  | _, .ninf => false
  | .inf, _ => false
  | .fin _, .inf => true
  | .fin x, .fin y => decide (x < y)

/-- Numeric value of a list of decimal digit characters (most significant
first); the caller checks that all characters are digits. -/
def digitsToNat (l : List Char) : Nat :=
  l.foldl (fun acc c => acc * 10 + (c.toNat - 48)) 0

/-- Value of a plain decimal literal (`"12"`, `"12.5"`, `".5"`, `"12."`),
`none` when the text is not of this form. -/
def decimalToRat (l : List Char) : Option ℚ :=
  if (l.all Char.isDigit) && !l.isEmpty then
    some (digitsToNat l)
  else
    match l.splitOn '.' with
    | [a, b] =>
      if (a.all Char.isDigit) && (b.all Char.isDigit) && !(a.isEmpty && b.isEmpty) then
        some ((digitsToNat a : ℚ) + (digitsToNat b : ℚ) / (10 : ℚ) ^ b.length)
      else none
    | _ => none

/-- Model of the Python builtin `float(text)` on the input forms this
program can meet: surrounding whitespace, an optional sign, the special
spellings `nan`, `inf`, `infinity` (case-insensitive), and plain decimal
literals.  Exponent notation and underscore separators are not modelled;
no claim uses them. -/
def pyFloatOfString (s : String) : Option PyFloat :=
  let t := (pyLower (pyStrip s)).data
  let signed : Bool × List Char :=
    match t with
    | '-' :: rest => (true, rest)
    | '+' :: rest => (false, rest)
    | l => (false, l)
  let neg := signed.1
  let u := signed.2
  if u = "nan".data then some .nan
  else if u = "inf".data || u = "infinity".data then
    some (if neg then .ninf else .inf)
  else
    match decimalToRat u with
    | some q => some (.fin (if neg then -q else q))
    | none => none

/-! ### The symbols dictionary

Python dictionaries mapping currency code to currency name are modelled
as association lists in insertion order. -/

abbrev SymTable := List (String × String)

/-! ### `handle_error` (src lines 28-48)

The function prints one categorised message per status code; the model
returns the printed text (for the final branch the two printed lines are
joined; the raw response text is not modelled). -/

def handle_error (status : Nat) : String :=
  if status = 401 then "❌ Unauthorized: Check your API key."
  else if status = 403 then "❌ Forbidden: You don\x27t have access to this service."
  else if status = 404 then "❌ Not Found: The requested resource does not exist."
  else if status = 429 then "❌ Too Many Requests: You exceeded the API request limit."
  else if status ≥ 500 then "❌ Server Error: Try again later."
  else "❌ Unexpected Error: " ++ toString status

/-! ### Network model -/

/-- Fields of the JSON body that the program reads: `data.get("success",
True)`, `data.get("symbols", {})` and `data.get("result")`. -/
structure ApiBody where
  success : Option Bool
  symbols : Option SymTable
  result : Option PyFloat
deriving DecidableEq, Repr

/-- Outcome of one `requests.get` call: either the transport raised
`RequestException`, or a response with a status code and a body arrived. -/
inductive RequestOutcome where
  | transportError : RequestOutcome
  | response : Nat → ApiBody → RequestOutcome
deriving DecidableEq, Repr

/-! ### `get_symbols` (src lines 51-78) -/

def get_symbols (outcome : RequestOutcome) : SymTable :=
  match outcome with
  | .transportError => []
  | .response status body =>
    if status ≠ 200 then []
    else if (body.success.getD true) = false then []
    else body.symbols.getD []

/-! ### `convert_currency` (src lines 161-190)

The from-code, to-code and amount only build the request URL; the model
takes the request outcome directly. -/

def convert_currency (outcome : RequestOutcome) : Option PyFloat :=
  match outcome with
  | .transportError => none
  | .response status body =>
    if status ≠ 200 then none
    else if (body.success.getD true) = false then none
    else body.result

/-! ### `choose_currency_from` (src lines 123-139) -/

def choose_currency_from (displayed : SymTable) : List String → Option (String × List String)
  | [] => none
  | line :: rest =>
    let cur := pyUpper (pyStrip line)
    if cur ∈ displayed.map Prod.fst then some (cur, rest)
    else choose_currency_from displayed rest

/-! ### `get_amount` (src lines 142-158) -/

def get_amount : List String → Option (PyFloat × List String)
  | [] => none
  | line :: rest =>
    match pyFloatOfString line with
    | none => get_amount rest
    | some amount =>
      if pyLe amount (.fin 0) then get_amount rest
      else some (amount, rest)

/-! ### `search_symbols` (src lines 81-120)

The function returns either the very dictionary object it was given
(`return symbols`, taken on the view-all path and on the no-match
fallback) or a freshly built filtered dictionary (`return matches`).
`main` later distinguishes the two with the object-identity test
`displayed is not symbols`, so the model records which return statement
produced the result. -/

inductive SearchOutcome where
  | original : SearchOutcome
  | fresh : SymTable → SearchOutcome
deriving DecidableEq, Repr

/-- The dictionary value a `SearchOutcome` stands for. -/
def SearchOutcome.toDict (symbols : SymTable) : SearchOutcome → SymTable
  | .original => symbols
  | .fresh m => m

/-- The dict comprehension of src line 99: entries whose lowered code or
lowered name contains the (already lowered and stripped) keyword. -/
def matchesFor (symbols : SymTable) (keyword : String) : SymTable :=
  symbols.filter fun p => pyIn keyword (pyLower p.1) || pyIn keyword (pyLower p.2)

/-- The search-or-all prompt loop of src lines 91-95: re-prompt until the
stripped, lowered line is `search` (`true`) or `all` (`false`). -/
def choiceLoop : List String → Option (Bool × List String)
  | [] => none
  | line :: rest =>
    let c := pyLower (pyStrip line)
    if c = "search" then some (true, rest)
    else if c = "all" then some (false, rest)
    else choiceLoop rest

/-- The retry-or-all prompt loop of src lines 108-114: re-prompt until the
stripped, lowered line is `retry` (`true`) or `all` (`false`). -/
def nxtLoop : List String → Option (Bool × List String)
  | [] => none
  | line :: rest =>
    let c := pyLower (pyStrip line)
    if c = "retry" then some (true, rest)
    else if c = "all" then some (false, rest)
    else nxtLoop rest

/-- `search_symbols`, fuelled: each recursive call (the `retry` branch of
src line 111) consumes at least three input lines, so fuel equal to the
length of the input stream is always enough. -/
def search_symbols_fuel (symbols : SymTable) : Nat → List String → Option (SearchOutcome × List String)
  | 0, _ => none
  | fuel + 1, inputs =>
    match choiceLoop inputs with
    | none => none
    | some (isSearch, rest) =>
      if isSearch then
        match rest with
        | [] => none
        | kwLine :: rest2 =>
          let keyword := pyLower (pyStrip kwLine)
          let found := matchesFor symbols keyword
          if found.isEmpty then
            match nxtLoop rest2 with
            | none => none
            | some (retry, rest3) =>
              if retry then search_symbols_fuel symbols fuel rest3
              else some (.original, rest3)
          else some (.fresh found, rest2)
      else some (.original, rest)

def search_symbols (symbols : SymTable) (inputs : List String) : Option (SearchOutcome × List String) :=
  search_symbols_fuel symbols inputs.length inputs

/-! ### Result formatting (the f-string of src line 245)

Model of the Python format specifier `,.2f` applied to a finite value:
round to two decimals (ties to even), then render sign, integer digits
grouped in threes by commas, a dot, and exactly two fraction digits. -/

/-- Round the fraction `num / den` (with `den` positive, not necessarily
reduced) to the nearest integer, ties to the even integer.  Written in
integer arithmetic so that it evaluates by kernel reduction: `f` is the
floor and `rem` the remainder, and the fractional part is compared with
one half by cross multiplication. -/
def roundHalfEven (num den : ℤ) : ℤ :=
  let f := Int.fdiv num den
  let rem := num - f * den
  if 2 * rem < den then f
  else if den < 2 * rem then f + 1
  else if f % 2 = 0 then f else f + 1

/-- Decimal digit character for a value below ten. -/
def natDigitChar (n : Nat) : Char :=
  Char.ofNat (48 + n)

/-- Decimal digits of a natural number, least significant first; the
fuel argument (any value at least the number of digits, below always the
number itself) makes the recursion structural. -/
def natDigitsRevFuel : Nat → Nat → List Char
  | 0, n => [natDigitChar (n % 10)]
  | fuel + 1, n =>
    if n < 10 then [natDigitChar n]
    else natDigitChar (n % 10) :: natDigitsRevFuel fuel (n / 10)

/-- Decimal digits of a natural number, least significant first. -/
def natDigitsRev (n : Nat) : List Char :=
  natDigitsRevFuel n n

/-- Insert a comma after every three characters of a least-significant-
first digit list. -/
def group3 : List Char → List Char
  | d1 :: d2 :: d3 :: d4 :: rest => d1 :: d2 :: d3 :: ',' :: group3 (d4 :: rest)
  | l => l

/-- Render one `PyFloat` as Python `format(x, ",.2f")` does. -/
def pyFormat (x : PyFloat) : String :=
  match x with
  | .nan => "nan"
  | .inf => "inf"
  | .ninf => "-inf"
  | .fin q =>
    let m : Nat := (roundHalfEven (q.num.natAbs * 100) q.den).toNat
    let intChars : List Char := (group3 (natDigitsRev (m / 100))).reverse
    let fracChars : List Char := [natDigitChar (m / 10 % 10), natDigitChar (m % 10)]
    String.mk ((if q < 0 then ['-'] else []) ++ intChars ++ '.' :: fracChars)

/-- The result line printed at src line 245 when `convert_currency`
returned a value; `none` when it returned `None` and nothing is printed. -/
def resultLine (from_c to_c : String) (amount : PyFloat) (result : Option PyFloat) : Option String :=
  match result with
  | none => none
  | some r =>
    some (String.mk ("\n✅ ".data ++ (pyFormat amount).data ++ " ".data
      ++ from_c.data ++ " = ".data ++ (pyFormat r).data ++ " ".data ++ to_c.data))

/-! ### Shape checkers for the rendered numbers

Independent checkers (not used by `pyFormat`) stating what "exactly two
fractional digits and thousands separators" means for a rendered
string. -/

/-- Drop one leading minus sign. -/
def stripNeg : List Char → List Char
  | c :: rest => if c = '-' then rest else c :: rest
  | [] => []

/-- Check a least-significant-first integer rendering: groups of up to
three digits separated by commas, full groups of three before every
comma. -/
def grpOk : List Char → Bool
  | [c1] => c1.isDigit
  | [c1, c2] => c1.isDigit && c2.isDigit
  | [c1, c2, c3] => c1.isDigit && c2.isDigit && c3.isDigit
  | c1 :: c2 :: c3 :: c4 :: rest =>
    c1.isDigit && c2.isDigit && c3.isDigit && (c4 == ',') && grpOk rest
  | [] => false

/-- Check a full rendered number: an optional minus sign, a comma-grouped
integer part of digits only, then a dot and exactly two digits, with no
other dot anywhere. -/
def commaFmtOk (s : String) : Bool :=
  match (stripNeg s.data).reverse with
  | d2 :: d1 :: dot :: restRev =>
    d1.isDigit && d2.isDigit && (dot == '.') && grpOk restRev
  | _ => false

/-! ### `main` (src lines 195-245) -/

/-- The restrict-to-displayed-results step of src lines 213-223 (and its
twin at 229-239): when the search returned a fresh dictionary, ask the
`y`/`n` question and select from the subset on `y`, from the full set
otherwise; when it returned the original object, select from the full set
with no question. -/
def pick_currency (symbols : SymTable) (d : SearchOutcome) (inputs : List String) : Option (String × List String) :=
  match d with
  | .original => choose_currency_from symbols inputs
  | .fresh m =>
    match inputs with
    | [] => none
    | ans :: rest =>
      if pyLower (pyStrip ans) = "y" then choose_currency_from m rest
      else choose_currency_from symbols rest

/-- What one call of `main` did: returned at once because the symbols
dictionary was empty, blocked forever on a prompt (the finite input list
ran out), or reached the end with the recorded selections, conversion
result and printed result line. -/
inductive MainResult where
  | aborted : MainResult
  | blocked : MainResult
  | finished : String → String → PyFloat → Option PyFloat → Option String → MainResult
deriving DecidableEq, Repr

/-- One pass of `main`: the fetch outcome and the convert outcome describe
what the network did, `inputs` what the operator typed.  Returns the
result together with the unconsumed input lines. -/
def main (fetch conv : RequestOutcome) (inputs : List String) : MainResult × List String :=
  let symbols := get_symbols fetch
  if symbols.isEmpty then (.aborted, inputs)
  else
    match search_symbols symbols inputs with
    | none => (.blocked, [])
    | some (d1, rest1) =>
      match pick_currency symbols d1 rest1 with
      | none => (.blocked, [])
      | some (from_c, rest2) =>
        match search_symbols symbols rest2 with
        | none => (.blocked, [])
        | some (d2, rest3) =>
          match pick_currency symbols d2 rest3 with
          | none => (.blocked, [])
          | some (to_c, rest4) =>
            match get_amount rest4 with
            | none => (.blocked, [])
            | some (amount, rest5) =>
              let result := convert_currency conv
              (.finished from_c to_c amount result (resultLine from_c to_c amount result), rest5)

/-! ### The `__main__` loop (src lines 248-258) -/

inductive LoopResult where
  | terminated : LoopResult
  | blocked : LoopResult
deriving DecidableEq, Repr

/-- The outer loop: run `main`, then ask whether to convert another
amount; any answer other than `y` (stripped, lowered) terminates the
program.  Returns how the loop ended and how many passes of `main` ran.
The network outcomes are taken to be the same on every pass; fuel bounds
the number of passes (each pass consumes at least one input line, so the
length of the input stream is always enough). -/
def session_loop (fetch conv : RequestOutcome) : Nat → List String → LoopResult × Nat
  | 0, _ => (.blocked, 0)
  | fuel + 1, inputs =>
    match (main fetch conv inputs).2 with
    | [] => (.blocked, 1)
    | ans :: rest =>
      if pyLower (pyStrip ans) = "y" then
        let p := session_loop fetch conv fuel rest
        (p.1, p.2 + 1)
      else (.terminated, 1)

/-! ## Theorems about the claims -/

/-- C2: the Amount Prompt is meant to return only values strictly greater
than zero (docstring of `get_amount`: a valid positive numeric amount),
but the rejection test `amount <= 0` is false for the parsed value of the
line `nan`, so `get_amount` returns `nan`, which is not strictly greater
than zero.  This theorem evaluates the code at that failing input. -/
theorem C2_nan_escapes_amount_check :
    get_amount ["nan"] = some (.nan, [])
    ∧ pyLe PyFloat.nan (.fin 0) = false
    ∧ pyLt (.fin 0) PyFloat.nan = false := by
  refine ⟨?_, rfl, rfl⟩
  decide

/-- C10: the rejection test of `get_amount` compares only with `<= 0`, so
the line `nan` (parsed by Python `float` to a NaN) is accepted and
returned although it is not strictly greater than zero, and the line
`inf` is accepted and returned as well. -/
theorem C10_nan_and_inf_accepted :
    pyFloatOfString "nan" = some .nan
    ∧ get_amount ["nan"] = some (.nan, [])
    ∧ pyLt (.fin 0) PyFloat.nan = false
    ∧ pyFloatOfString "inf" = some .inf
    ∧ get_amount ["inf"] = some (.inf, []) := by
  refine ⟨by decide, by decide, rfl, by decide, by decide⟩

/-- C3: whenever `choose_currency_from` returns a code, that code is the
stripped and uppercased form of one of the operator lines and is a key of
the allowed dictionary; there is no other return path. -/
theorem C3_selector_only_allowed (displayed : SymTable) (inputs : List String)
    (c : String) (rest : List String)
    (h : choose_currency_from displayed inputs = some (c, rest)) :
    c ∈ displayed.map Prod.fst ∧ ∃ line ∈ inputs, c = pyUpper (pyStrip line) := by
  induction inputs with
  | nil => simp [choose_currency_from] at h
  | cons line tl ih =>
    rw [choose_currency_from] at h
    by_cases hm : pyUpper (pyStrip line) ∈ displayed.map Prod.fst
    · simp only [hm, if_true, Option.some.injEq, Prod.mk.injEq] at h
      exact ⟨h.1 ▸ hm, line, List.mem_cons_self line tl, h.1.symm⟩
    · simp only [hm, if_false] at h
      obtain ⟨hc, l, hl, he⟩ := ih h
      exact ⟨hc, l, List.mem_cons_of_mem line hl, he⟩

/-- C3 witness: a concrete run in which the first line is rejected and
the second, once stripped and uppercased, is accepted. -/
theorem C3_selector_witness :
    "USD" ∈ ([("USD", "United States Dollar")] : SymTable).map Prod.fst
    ∧ ∃ line ∈ ["xxx", " usd "], "USD" = pyUpper (pyStrip line) :=
  C3_selector_only_allowed [("USD", "United States Dollar")] ["xxx", " usd "] "USD" []
    (by decide)

/-- C4: `get_symbols` returns the empty mapping on transport failure, on
every non-200 status, and on a body whose success flag is `false`; on a
200 response whose success flag is absent or `true` it returns the
`symbols` field, defaulting to the empty mapping when that field is
absent. -/
theorem C4_get_symbols_spec :
    get_symbols .transportError = []
    ∧ (∀ (s : Nat) (b : ApiBody), s ≠ 200 → get_symbols (.response s b) = [])
    ∧ (∀ (s : Nat) (b : ApiBody), b.success = some false → get_symbols (.response s b) = [])
    ∧ (∀ b : ApiBody, b.success ≠ some false →
        get_symbols (.response 200 b) = b.symbols.getD []) := by
  refine ⟨rfl, ?_, ?_, ?_⟩
  · intro s b hs
    simp [get_symbols, hs]
  · intro s b hb
    by_cases hs : s = 200 <;> simp [get_symbols, hs, hb]
  · intro b hb
    match hsb : b.success with
    | none => simp [get_symbols, hsb]
    | some true => simp [get_symbols, hsb]
    | some false => exact absurd hsb hb

/-- C4 witness: a 500 status yields the empty mapping, and a 200 response
with no success flag and no symbols field yields the empty mapping by
default. -/
theorem C4_get_symbols_witness :
    get_symbols (.response 500 ⟨some true, some [("USD", "United States Dollar")], none⟩) = []
    ∧ get_symbols (.response 200 ⟨none, some [("USD", "United States Dollar")], none⟩)
        = [("USD", "United States Dollar")] := by
  constructor
  · exact C4_get_symbols_spec.2.1 500 _ (by decide)
  · exact C4_get_symbols_spec.2.2.2 ⟨none, some [("USD", "United States Dollar")], none⟩
      (by simp)

/-- Helper: the `finished` state of `main` is built in exactly one place,
so its result component is what `convert_currency` returned and its line
component is `resultLine` of that result. -/
theorem main_finished_inv {fetch conv : RequestOutcome} {inputs : List String}
    {f t : String} {a : PyFloat} {res : Option PyFloat} {ln : Option String}
    {rest : List String}
    (h : main fetch conv inputs = (.finished f t a res ln, rest)) :
    res = convert_currency conv ∧ ln = resultLine f t a res := by
  unfold main at h
  dsimp only at h
  split at h
  · simp at h
  · split at h
    · simp at h
    · split at h
      · simp at h
      · split at h
        · simp at h
        · split at h
          · simp at h
          · split at h
            · simp at h
            · simp only [Prod.mk.injEq, MainResult.finished.injEq] at h
              obtain ⟨⟨hf, ht, ha, hres, hln⟩, -⟩ := h
              subst hf; subst ht; subst ha; subst hres
              exact ⟨rfl, hln.symm⟩

/-- C5: `convert_currency` returns `none` on transport failure, on every
non-200 status and on a success-flag-false body; on a 200 response whose
success flag is absent or `true` it returns the `result` field, which is
itself `none` when absent; and when the result is `none` the finished
session prints no result line (and reaches the `finished` state rather
than crashing). -/
theorem C5_convert_currency_spec :
    convert_currency .transportError = none
    ∧ (∀ (s : Nat) (b : ApiBody), s ≠ 200 → convert_currency (.response s b) = none)
    ∧ (∀ (s : Nat) (b : ApiBody), b.success = some false →
        convert_currency (.response s b) = none)
    ∧ (∀ b : ApiBody, b.success ≠ some false →
        convert_currency (.response 200 b) = b.result)
    ∧ (∀ (fetch conv : RequestOutcome) (inputs : List String) (f t : String)
        (a : PyFloat) (ln : Option String) (rest : List String),
        main fetch conv inputs = (.finished f t a none ln, rest) → ln = none) := by
  refine ⟨rfl, ?_, ?_, ?_, ?_⟩
  · intro s b hs
    simp [convert_currency, hs]
  · intro s b hb
    by_cases hs : s = 200 <;> simp [convert_currency, hs, hb]
  · intro b hb
    match hsb : b.success with
    | none => simp [convert_currency, hsb]
    | some true => simp [convert_currency, hsb]
    | some false => exact absurd hsb hb
  · intro fetch conv inputs f t a ln rest h
    exact (main_finished_inv h).2

/-- C5 witness: a success-flag-false 200 response makes the converter
return `none`, and a full concrete session pass whose conversion request
fails prints no result line. -/
theorem C5_convert_currency_witness :
    convert_currency (.response 200 ⟨some false, none, some (.fin 1)⟩) = none
    ∧ (none : Option String) = none := by
  constructor
  · exact C5_convert_currency_spec.2.2.1 200 _ rfl
  · exact C5_convert_currency_spec.2.2.2.2
      (.response 200 ⟨some true, some [("USD", "United States Dollar")], none⟩)
      .transportError ["all", "USD", "all", "USD", "1"]
      "USD" "USD" (.fin 1) none [] (by decide)

/-- C8: whenever the fetched symbols mapping is empty the pass returns at
once, consuming no operator input (so no search, selection or amount
prompt is answered); in particular on an HTTP 401 response `get_symbols`
is empty for every body and `handle_error` reports unauthorized. -/
theorem C8_empty_symbols_aborts :
    (∀ (fetch conv : RequestOutcome) (inputs : List String),
      get_symbols fetch = [] → main fetch conv inputs = (.aborted, inputs))
    ∧ (∀ b : ApiBody, get_symbols (.response 401 b) = [])
    ∧ handle_error 401 = "❌ Unauthorized: Check your API key." := by
  refine ⟨?_, ?_, rfl⟩
  · intro fetch conv inputs h
    unfold main
    simp [h]
  · intro b
    simp [get_symbols]

/-- C8 witness: a concrete 401 fetch leaves a concrete input stream
untouched and the pass aborted. -/
theorem C8_empty_symbols_witness :
    main (.response 401 ⟨none, none, none⟩) .transportError ["all", "USD"]
      = (.aborted, ["all", "USD"]) :=
  C8_empty_symbols_aborts.1 (.response 401 ⟨none, none, none⟩) .transportError
    ["all", "USD"] (by decide)

/-- C9: after a pass of `main`, the next input line answers the
run-another-pass question; any answer other than `y` (stripped, lowered)
terminates the loop with no further pass, while `y` runs exactly one more
recursion of the loop, which begins with the symbol fetch inside
`main`. -/
theorem C9_loop_termination (fetch conv : RequestOutcome) (fuel : Nat)
    (inputs : List String) (res : MainResult) (ans : String) (rest : List String)
    (h : main fetch conv inputs = (res, ans :: rest)) :
    (pyLower (pyStrip ans) ≠ "y" →
      session_loop fetch conv (fuel + 1) inputs = (.terminated, 1))
    ∧ (pyLower (pyStrip ans) = "y" →
      session_loop fetch conv (fuel + 1) inputs =
        ((session_loop fetch conv fuel rest).1, (session_loop fetch conv fuel rest).2 + 1)) := by
  constructor <;> intro hy <;> simp [session_loop, h, hy]

/-- C9 witness: with an aborting fetch and the answers `y` then `n`, the
first `y` runs a second pass and the `n` then terminates the loop after
two passes in total. -/
theorem C9_loop_termination_witness :
    session_loop (.response 401 ⟨none, none, none⟩) .transportError 2 ["y", "n"]
      = (.terminated, 2) := by
  have h2 := (C9_loop_termination (.response 401 ⟨none, none, none⟩) .transportError 0
    ["n"] .aborted "n" [] (by decide)).1 (by decide)
  have h1 := (C9_loop_termination (.response 401 ⟨none, none, none⟩) .transportError 1
    ["y", "n"] .aborted "y" ["n"] (by decide)).2 (by decide)
  rw [h1, h2]

/-- C7 counterexample: the code decides whether to ask the restriction
question with the object-identity test `displayed is not symbols`, not
with mapping equality.  Here the search keyword matches every entry, so
the returned fresh dictionary is equal as a mapping to the full set, yet
the next input line is still consumed as the restriction answer: direct
selection would accept `usd`, but `pick_currency` treats it as the
`y`/`n` answer and blocks. -/
theorem C7_identity_counterexample :
    search_symbols [("USD", "United States Dollar")] ["search", "usd"]
      = some (.fresh [("USD", "United States Dollar")], [])
    ∧ SearchOutcome.toDict [("USD", "United States Dollar")]
        (.fresh [("USD", "United States Dollar")]) = [("USD", "United States Dollar")]
    ∧ pick_currency [("USD", "United States Dollar")]
        (.fresh [("USD", "United States Dollar")]) ["usd"] = none
    ∧ choose_currency_from [("USD", "United States Dollar")] ["usd"]
      = some ("USD", []) := by
  refine ⟨by decide, rfl, by decide, by decide⟩

/-- C7 amended: the restriction question is asked exactly when the search
returned a freshly built match dictionary (the non-empty-match path),
even when that dictionary equals the full set as a mapping; on the answer
`y` the subset is used for selection, on any other answer the full set
is. -/
theorem C7_restrict_question (symbols m : SymTable) (ans : String)
    (rest inputs : List String) :
    pick_currency symbols .original inputs = choose_currency_from symbols inputs
    ∧ pick_currency symbols (.fresh m) (ans :: rest) =
        (if pyLower (pyStrip ans) = "y" then choose_currency_from m rest
         else choose_currency_from symbols rest) :=
  ⟨rfl, rfl⟩

/-- Helper: membership in the filtered match dictionary is exactly
membership in the input together with the case-insensitive substring test
on code or name. -/
theorem mem_matchesFor {symbols : SymTable} {kw : String} {p : String × String} :
    p ∈ matchesFor symbols kw ↔
      p ∈ symbols ∧ (kw.data <:+: (pyLower p.1).data ∨ kw.data <:+: (pyLower p.2).data) := by
  simp [matchesFor, List.mem_filter, pyIn]

/-- Helper: whenever the fuelled search returns a fresh dictionary, that
dictionary is the non-empty match filter for some keyword. -/
theorem search_fuel_fresh {symbols : SymTable} :
    ∀ (fuel : Nat) (inputs : List String) (m : SymTable) (rest : List String),
      search_symbols_fuel symbols fuel inputs = some (.fresh m, rest) →
      ∃ kw : String, m = matchesFor symbols kw ∧ m ≠ [] := by
  intro fuel
  induction fuel with
  | zero =>
    intro inputs m rest h
    simp [search_symbols_fuel] at h
  | succ n ih =>
    intro inputs m rest h
    rw [search_symbols_fuel] at h
    rcases hc : choiceLoop inputs with _ | ⟨isSearch, rest1⟩
    · rw [hc] at h; simp at h
    · rw [hc] at h
      dsimp only at h
      rcases isSearch with _ | _
      · simp at h
      · simp only [if_true] at h
        rcases rest1 with _ | ⟨kwLine, rest2⟩
        · simp at h
        · dsimp only at h
          by_cases hf : (matchesFor symbols (pyLower (pyStrip kwLine))).isEmpty
          · simp only [hf, if_true] at h
            rcases hn : nxtLoop rest2 with _ | ⟨retry, rest3⟩
            · rw [hn] at h; simp at h
            · rw [hn] at h
              dsimp only at h
              rcases retry with _ | _
              · simp at h
              · simp only [if_true] at h
                exact ih rest3 m rest h
          · simp [hf] at h
            refine ⟨pyLower (pyStrip kwLine), h.1.symm, ?_⟩
            rw [← h.1]
            intro hnil
            rw [hnil] at hf
            exact hf rfl

/-- C1 counterexample: the spec claims the exclusion of non-matching
entries holds for all keywords including the no-match fallback, but when
no entry matches and the operator types `all`, the complete set is
returned; it contains an entry matching neither by code nor by name. -/
theorem C1_fallback_counterexample :
    search_symbols [("USD", "United States Dollar")] ["search", "xyz", "all"]
      = some (.original, [])
    ∧ ("USD", "United States Dollar")
        ∈ SearchOutcome.toDict [("USD", "United States Dollar")] .original
    ∧ pyIn "xyz" (pyLower "USD") = false
    ∧ pyIn "xyz" (pyLower "United States Dollar") = false := by
  refine ⟨by decide, by decide, by decide, by decide⟩

/-- C1 amended: whenever `search_symbols` returns through the non-empty
match path, the returned dictionary holds exactly those entries of the
input whose lowered code or lowered name contains the lowered keyword as
a substring; the no-match fallback instead returns the complete set. -/
theorem C1_search_matches_exact (symbols : SymTable) (inputs : List String)
    (m : SymTable) (rest : List String)
    (h : search_symbols symbols inputs = some (.fresh m, rest)) :
    ∃ kw : String, m ≠ [] ∧ ∀ c n : String,
      ((c, n) ∈ m ↔ (c, n) ∈ symbols ∧
        (kw.data <:+: (pyLower c).data ∨ kw.data <:+: (pyLower n).data)) := by
  obtain ⟨kw, hm, hne⟩ := search_fuel_fresh inputs.length inputs m rest h
  exact ⟨kw, hne, fun c n => hm ▸ mem_matchesFor⟩

/-- C1 witness: a concrete search whose keyword matches exactly one of
two entries. -/
theorem C1_search_matches_witness :
    ∃ kw : String, ([("USD", "United States Dollar")] : SymTable) ≠ [] ∧ ∀ c n : String,
      ((c, n) ∈ ([("USD", "United States Dollar")] : SymTable) ↔
        (c, n) ∈ ([("USD", "United States Dollar"), ("EGP", "Egyptian Pound")] : SymTable) ∧
        (kw.data <:+: (pyLower c).data ∨ kw.data <:+: (pyLower n).data)) :=
  C1_search_matches_exact [("USD", "United States Dollar"), ("EGP", "Egyptian Pound")]
    ["search", "usd"] [("USD", "United States Dollar")] [] (by decide)

/-! ### Lemmas about the rendered number shape -/

theorem natDigitChar_isDigit (n : Nat) (h : n < 10) :
    (natDigitChar n).isDigit = true := by
  interval_cases n <;> decide

theorem natDigitsRevFuel_ne_nil (fuel n : Nat) : natDigitsRevFuel fuel n ≠ [] := by
  cases fuel with
  | zero => simp [natDigitsRevFuel]
  | succ m =>
    rw [natDigitsRevFuel]
    split <;> simp

theorem natDigitsRev_ne_nil (n : Nat) : natDigitsRev n ≠ [] :=
  natDigitsRevFuel_ne_nil n n

theorem natDigitsRevFuel_digits (fuel : Nat) :
    ∀ n : Nat, ∀ c ∈ natDigitsRevFuel fuel n, c.isDigit = true := by
  induction fuel with
  | zero =>
    intro n c hc
    simp only [natDigitsRevFuel, List.mem_singleton] at hc
    subst hc
    exact natDigitChar_isDigit _ (Nat.mod_lt _ (by omega))
  | succ m ih =>
    intro n c hc
    rw [natDigitsRevFuel] at hc
    split at hc
    · next h =>
      simp only [List.mem_singleton] at hc
      subst hc
      exact natDigitChar_isDigit _ h
    · next h =>
      rcases List.mem_cons.mp hc with h1 | h2
      · subst h1
        exact natDigitChar_isDigit _ (Nat.mod_lt _ (by omega))
      · exact ih (n / 10) c h2

theorem natDigitsRev_digits (n : Nat) : ∀ c ∈ natDigitsRev n, c.isDigit = true :=
  natDigitsRevFuel_digits n n

theorem group3_ne_nil (l : List Char) (h : l ≠ []) : group3 l ≠ [] := by
  rcases l with _ | ⟨a, _ | ⟨b, _ | ⟨c, _ | ⟨d, rest⟩⟩⟩⟩ <;> simp_all [group3]

theorem group3_mem : ∀ (l : List Char) (c : Char), c ∈ group3 l → c ∈ l ∨ c = ','
  | [], _, h => by simp [group3] at h
  | [a], c, h => by
    simp [group3] at h
    exact Or.inl (by simp [h])
  | [a, b], c, h => by
    simp [group3] at h
    rcases h with h | h <;> exact Or.inl (by simp [h])
  | [a, b, d3], c, h => by
    simp [group3] at h
    rcases h with h | h | h <;> exact Or.inl (by simp [h])
  | a :: b :: d3 :: d4 :: rest, c, h => by
    rw [show group3 (a :: b :: d3 :: d4 :: rest) =
      a :: b :: d3 :: ',' :: group3 (d4 :: rest) from rfl] at h
    simp only [List.mem_cons] at h
    rcases h with h | h | h | h | h
    · exact Or.inl (by simp [h])
    · exact Or.inl (by simp [h])
    · exact Or.inl (by simp [h])
    · exact Or.inr h
    · rcases group3_mem (d4 :: rest) c h with h2 | h2
      · exact Or.inl (by simp [List.mem_cons.mp h2])
      · exact Or.inr h2

theorem grpOk_group3 : ∀ l : List Char, l ≠ [] → (∀ c ∈ l, c.isDigit = true) →
    grpOk (group3 l) = true
  | [], hne, _ => absurd rfl hne
  | [a], _, hd => by simp [group3, grpOk, hd a (by simp)]
  | [a, b], _, hd => by simp [group3, grpOk, hd a (by simp), hd b (by simp)]
  | [a, b, d3], _, hd => by
    simp [group3, grpOk, hd a (by simp), hd b (by simp), hd d3 (by simp)]
  | a :: b :: d3 :: d4 :: rest, _, hd => by
    have hg := grpOk_group3 (d4 :: rest) (by simp)
      (fun c hc => hd c (by simp [List.mem_cons.mp hc]))
    obtain ⟨e, tl, hg2⟩ := List.exists_cons_of_ne_nil (group3_ne_nil (d4 :: rest) (by simp))
    rw [show group3 (a :: b :: d3 :: d4 :: rest) =
      a :: b :: d3 :: ',' :: group3 (d4 :: rest) from rfl, hg2]
    rw [hg2] at hg
    simp [grpOk, hd a (by simp), hd b (by simp), hd d3 (by simp), hg]

theorem stripNeg_neg (l : List Char) : stripNeg ('-' :: l) = l := by
  simp [stripNeg]

theorem stripNeg_of_ne (c : Char) (l : List Char) (h : c ≠ '-') :
    stripNeg (c :: l) = c :: l := by
  simp [stripNeg, h]

theorem commaFmtOk_pyFormat (q : ℚ) : commaFmtOk (pyFormat (.fin q)) = true := by
  unfold pyFormat
  dsimp only
  have hdl_ne : natDigitsRev ((roundHalfEven (q.num.natAbs * 100) q.den).toNat / 100) ≠ [] :=
    natDigitsRev_ne_nil _
  have hdl_dig := natDigitsRev_digits ((roundHalfEven (q.num.natAbs * 100) q.den).toNat / 100)
  have hgrp := grpOk_group3 _ hdl_ne hdl_dig
  have ha : (natDigitChar ((roundHalfEven (q.num.natAbs * 100) q.den).toNat / 10 % 10)).isDigit = true :=
    natDigitChar_isDigit _ (Nat.mod_lt _ (by omega))
  have hb : (natDigitChar ((roundHalfEven (q.num.natAbs * 100) q.den).toNat % 10)).isDigit = true :=
    natDigitChar_isDigit _ (Nat.mod_lt _ (by omega))
  set dl := natDigitsRev ((roundHalfEven (q.num.natAbs * 100) q.den).toNat / 100) with hdl
  set a := natDigitChar ((roundHalfEven (q.num.natAbs * 100) q.den).toNat / 10 % 10) with hda
  set b := natDigitChar ((roundHalfEven (q.num.natAbs * 100) q.den).toNat % 10) with hdb
  by_cases hq : q < 0
  · simp only [hq, if_true]
    show commaFmtOk (String.mk ('-' :: ((group3 dl).reverse ++ '.' :: [a, b]))) = true
    unfold commaFmtOk
    rw [show (String.mk ('-' :: ((group3 dl).reverse ++ '.' :: [a, b]))).data
        = '-' :: ((group3 dl).reverse ++ '.' :: [a, b]) from rfl]
    rw [stripNeg_neg, List.reverse_append, List.reverse_reverse]
    simp only [List.reverse_cons, List.reverse_nil]
    show (a.isDigit && b.isDigit && ('.' == '.') && grpOk (group3 dl)) = true
    simp [ha, hb, hgrp]
  · simp only [hq, if_false]
    obtain ⟨c0, l0, hic⟩ := List.exists_cons_of_ne_nil
      (show (group3 dl).reverse ≠ [] by
        simpa using group3_ne_nil _ hdl_ne)
    have hc0 : c0 ∈ group3 dl := by
      rw [← List.mem_reverse, hic]; simp
    have hc0ne : c0 ≠ '-' := by
      rcases group3_mem _ _ hc0 with h1 | h1
      · have hdig := hdl_dig c0 h1
        intro hcon
        rw [hcon] at hdig
        exact absurd hdig (by decide)
      · rw [h1]; decide
    show commaFmtOk (String.mk ([] ++ ((group3 dl).reverse ++ '.' :: [a, b]))) = true
    unfold commaFmtOk
    rw [show (String.mk ([] ++ ((group3 dl).reverse ++ '.' :: [a, b]))).data
        = (group3 dl).reverse ++ '.' :: [a, b] from rfl]
    rw [hic, show (c0 :: l0) ++ '.' :: [a, b] = c0 :: (l0 ++ '.' :: [a, b]) from rfl,
      stripNeg_of_ne c0 _ hc0ne,
      show c0 :: (l0 ++ '.' :: [a, b]) = (c0 :: l0) ++ '.' :: [a, b] from rfl,
      ← hic, List.reverse_append, List.reverse_reverse]
    simp only [List.reverse_cons, List.reverse_nil]
    show (a.isDigit && b.isDigit && ('.' == '.') && grpOk (group3 dl)) = true
    simp [ha, hb, hgrp]

/-- C6: whenever a pass finishes with a finite amount and a finite
non-none conversion result, exactly one result line is produced, and it
contains both currency codes and the renderings of the amount and the
result, each of which has an optional sign, a comma-grouped integer part,
and exactly two digits after its only dot. -/
theorem C6_result_line_format (fetch conv : RequestOutcome) (inputs : List String)
    (f t : String) (qa qr : ℚ) (ln : Option String) (rest : List String)
    (h : main fetch conv inputs = (.finished f t (.fin qa) (some (.fin qr)) ln, rest)) :
    ∃ L : String, ln = some L
      ∧ f.data <:+: L.data
      ∧ t.data <:+: L.data
      ∧ (pyFormat (.fin qa)).data <:+: L.data
      ∧ (pyFormat (.fin qr)).data <:+: L.data
      ∧ commaFmtOk (pyFormat (.fin qa)) = true
      ∧ commaFmtOk (pyFormat (.fin qr)) = true := by
  obtain ⟨-, hln⟩ := main_finished_inv h
  refine ⟨_, hln, ?_, ?_, ?_, ?_, commaFmtOk_pyFormat qa, commaFmtOk_pyFormat qr⟩
  · exact ⟨"\n✅ ".data ++ (pyFormat (.fin qa)).data ++ " ".data,
      " = ".data ++ (pyFormat (.fin qr)).data ++ " ".data ++ t.data,
      by simp [resultLine]⟩
  · exact ⟨"\n✅ ".data ++ (pyFormat (.fin qa)).data ++ " ".data ++ f.data
        ++ " = ".data ++ (pyFormat (.fin qr)).data ++ " ".data,
      [], by simp [resultLine]⟩
  · exact ⟨"\n✅ ".data,
      " ".data ++ f.data ++ " = ".data ++ (pyFormat (.fin qr)).data ++ " ".data ++ t.data,
      by simp [resultLine]⟩
  · exact ⟨"\n✅ ".data ++ (pyFormat (.fin qa)).data ++ " ".data ++ f.data ++ " = ".data,
      " ".data ++ t.data, by simp [resultLine]⟩

/-- C6 witness: a concrete pass converting 100 USD to 4,700.00 EGP. -/
theorem C6_result_line_witness :
    ∃ L : String, (some "\n✅ 100.00 USD = 4,700.00 EGP" : Option String) = some L
      ∧ "USD".data <:+: L.data
      ∧ "EGP".data <:+: L.data
      ∧ (pyFormat (.fin 100)).data <:+: L.data
      ∧ (pyFormat (.fin 4700)).data <:+: L.data
      ∧ commaFmtOk (pyFormat (.fin 100)) = true
      ∧ commaFmtOk (pyFormat (.fin 4700)) = true :=
  C6_result_line_format
    (.response 200 ⟨some true, some [("USD", "United States Dollar"), ("EGP", "Egyptian Pound")], none⟩)
    (.response 200 ⟨none, none, some (.fin 4700)⟩)
    ["all", "USD", "all", "EGP", "100"]
    "USD" "EGP" 100 4700 (some "\n✅ 100.00 USD = 4,700.00 EGP") []
    (by rfl)

end CurrencyConverter
